import Mathlib

/-!
Verification of the i18n locale tree engine and the DeepL glossary client.

The data model (LocaleRecord, LocaleNode, Coverage, PendingWrite) and the
accessor LocaleNode.getValue are translated from the source.  Locale maps
(TS objects keyed by locale) are modelled as association lists.
-/

set_option maxHeartbeats 1000000

namespace I18n

/-- Modelled from the spec: getKeyname (imported in the source from utils,
whose code is absent) returns the last dot-separated segment of a keypath;
keyname of the empty keypath is the empty string. -/
def getKeyname (keypath : String) : String :=
  (keypath.splitOn ".").getLastD ""

/-- LocaleRecord: one locale value for one keypath, from the source. -/
structure LocaleRecord where
  keypath : String
  keyname : String
  value : String
  locale : String
  filepath : Option String
  shadow : Bool
deriving DecidableEq, Repr

/-- LocaleNode: per-keypath aggregate across locales, from the source.
The TS field locales is an object keyed by locale; it is modelled as an
association list from locale to LocaleRecord. -/
structure LocaleNode where
  keypath : String
  keyname : String
  locales : List (String × LocaleRecord)
  shadow : Bool
deriving DecidableEq, Repr

/-- LocaleNode.getValue, from the source line
return (this.locales[locale] and this.locales[locale].value) or fallback
where the JS and/or operators are truthiness based: a record whose value is
the empty string is falsy, so the fallback is returned for it. -/
def LocaleNode.getValue (n : LocaleNode) (locale : String) (fallback : String) : String :=
  match n.locales.lookup locale with
  | some r => if r.value = "" then fallback else r.value
  | none => fallback

/-- The fallback parameter defaults to the empty string in the source; the
omitted-argument form is modelled by passing the empty string. -/
def LocaleNode.getValueDefault (n : LocaleNode) (locale : String) : String :=
  n.getValue locale ""

end I18n

namespace I18n

/-- A concrete record with an empty value for the C1 counterexample. -/
def emptyValueRecord : LocaleRecord :=
  { keypath := "a.b", keyname := "b", value := "", locale := "en"
  , filepath := some "en.json", shadow := false }

/-- A concrete node whose en record holds the empty string. -/
def emptyValueNode : LocaleNode :=
  { keypath := "a.b", keyname := "b", locales := [("en", emptyValueRecord)]
  , shadow := false }

end I18n

/-- C1 counterexample: the node emptyValueNode has a record for locale en
whose value is the empty string, yet getValue at en with fallback fb returns
fb instead of that value, refuting the claim that getValue returns the value
of the record whenever the record exists. -/
theorem C1_getValue_counterexample :
    (I18n.emptyValueNode.locales.lookup "en" = some I18n.emptyValueRecord)
    ∧ I18n.emptyValueRecord.value = ""
    ∧ I18n.emptyValueNode.getValue "en" "fb" = "fb"
    ∧ I18n.emptyValueNode.getValue "en" "fb" ≠ I18n.emptyValueRecord.value := by
  refine ⟨rfl, rfl, rfl, ?_⟩
  decide

/-- C1 amended: getValue returns the value of the record for locale l when
such a record exists and its value is non-empty, and returns the fallback f
otherwise (when the record is absent, or present with empty value); the
omitted fallback is the empty string. -/
theorem C1_getValue_amended (n : I18n.LocaleNode) (l f : String) :
    (∀ r, n.locales.lookup l = some r → r.value ≠ "" → n.getValue l f = r.value)
    ∧ (∀ r, n.locales.lookup l = some r → r.value = "" → n.getValue l f = f)
    ∧ (n.locales.lookup l = none → n.getValue l f = f)
    ∧ n.getValueDefault l = n.getValue l "" := by
  refine ⟨?_, ?_, ?_, rfl⟩
  · intro r hr hv
    simp [I18n.LocaleNode.getValue, hr, hv]
  · intro r hr hv
    simp [I18n.LocaleNode.getValue, hr, hv]
  · intro h
    simp [I18n.LocaleNode.getValue, h]

/-- Witness for C1 amended at the concrete node emptyValueNode. -/
theorem C1_getValue_amended_witness :
    I18n.emptyValueNode.getValue "en" "fb" = "fb" :=
  (C1_getValue_amended I18n.emptyValueNode "en" "fb").2.1
    I18n.emptyValueRecord rfl rfl

/-- C2: a present-but-empty translation is indistinguishable from an absent
locale through getValue: when the record for l exists with empty value and
the fallback f is non-empty, getValue returns f and not the empty string. -/
theorem C2_getValue_empty_record (n : I18n.LocaleNode) (l f : String)
    (r : I18n.LocaleRecord) (hr : n.locales.lookup l = some r)
    (hv : r.value = "") (hf : f ≠ "") :
    n.getValue l f = f ∧ n.getValue l f ≠ "" := by
  constructor
  · simp [I18n.LocaleNode.getValue, hr, hv]
  · simp [I18n.LocaleNode.getValue, hr, hv, hf]

/-- Witness for C2 at the concrete node emptyValueNode. -/
theorem C2_getValue_empty_record_witness :
    I18n.emptyValueNode.getValue "en" "fb" = "fb"
    ∧ I18n.emptyValueNode.getValue "en" "fb" ≠ "" :=
  C2_getValue_empty_record I18n.emptyValueNode "en" "fb"
    I18n.emptyValueRecord rfl rfl (by decide)

namespace I18n

/-- Modelled from the spec: the KeyPath Utilities separator (default dot).
The utilities module itself is absent from the sources. -/
def sep : Char := '.'

/-- Modelled from the spec: the escape character of the KeyPath Utilities
escape convention letting a segment contain a literal separator. -/
def esc : Char := Char.ofNat 92

/-- Modelled from the spec: re-escape one segment when joining, so that a
segment-internal separator or escape character round-trips losslessly. -/
def escSeg : List Char → List Char
  | [] => []
  | c :: cs => if c = sep ∨ c = esc then esc :: c :: escSeg cs else c :: escSeg cs

/-- Modelled from the spec: join segments with the separator, escaping each
segment; the inverse of split. -/
def joinSegs : List (List Char) → List Char
  | [] => []
  | [s] => escSeg s
  | s :: rest => escSeg s ++ sep :: joinSegs rest

/-- Prepend an unescaped character to the first segment of a split result. -/
def consHead (c : Char) : List (List Char) → List (List Char)
  | [] => [[c]]
  | s :: ss => (c :: s) :: ss

/-- Modelled from the spec: split a keypath on every unescaped separator;
a malformed escape sequence (dangling escape or an escape followed by any
character other than the separator or the escape character) fails, which
models the KeypathFormatError of the spec. -/
def splitChars : List Char → Option (List (List Char))
  | [] => some [[]]
  | c :: rest =>
    if c = esc then
      match rest with
      | [] => none
      | d :: rest2 =>
        if d = sep ∨ d = esc then (splitChars rest2).map (consHead d) else none
    else if c = sep then (splitChars rest).map (fun ss => [] :: ss)
    else (splitChars rest).map (consHead c)

/-- A successful split yields at least one segment. -/
theorem splitChars_ne_nil : ∀ l ss, splitChars l = some ss → ss ≠ [] := by
  intro l
  induction l using splitChars.induct with
  | case1 =>
    intro ss h; simp [splitChars] at h; simp [← h]
  | case2 =>
    intro ss h; simp [splitChars] at h
  | case3 d rest2 hd ih =>
    intro ss h
    simp [splitChars, hd] at h
    obtain ⟨ss2, hss2, rfl⟩ := h
    cases ss2 with
    | nil => simp [consHead]
    | cons s t => simp [consHead]
  | case4 d rest2 hd =>
    intro ss h; simp [splitChars, hd] at h
  | case5 rest2 hne ih =>
    intro ss h
    rw [splitChars.eq_def] at h
    simp [hne] at h
    obtain ⟨ss2, hss2, rfl⟩ := h
    simp
  | case6 d rest2 hde hds ih =>
    intro ss h
    rw [splitChars.eq_def] at h
    simp [hde, hds] at h
    obtain ⟨ss2, hss2, rfl⟩ := h
    cases ss2 with
    | nil => simp [consHead]
    | cons s t => simp [consHead]

/-- Joining after prepending a plain character prepends that character. -/
theorem joinSegs_consHead (c : Char) (hc : ¬(c = sep ∨ c = esc))
    (ss : List (List Char)) (h : ss ≠ []) :
    joinSegs (consHead c ss) = c :: joinSegs ss := by
  cases ss with
  | nil => exact absurd rfl h
  | cons s t =>
    cases t with
    | nil => simp [consHead, joinSegs, escSeg, hc]
    | cons s2 t2 => simp [consHead, joinSegs, escSeg, hc]

/-- Joining after prepending an escapable character re-emits its escape. -/
theorem joinSegs_consHead_escaped (d : Char) (hd : d = sep ∨ d = esc)
    (ss : List (List Char)) (h : ss ≠ []) :
    joinSegs (consHead d ss) = esc :: d :: joinSegs ss := by
  cases ss with
  | nil => exact absurd rfl h
  | cons s t =>
    cases t with
    | nil => simp [consHead, joinSegs, escSeg, hd]
    | cons s2 t2 => simp [consHead, joinSegs, escSeg, hd]

/-- Character-level round trip: a keypath that splits successfully is
restored exactly by join. -/
theorem join_split_chars : ∀ l ss, splitChars l = some ss → joinSegs ss = l := by
  intro l
  induction l using splitChars.induct with
  | case1 =>
    intro ss h; simp [splitChars] at h; simp [← h, joinSegs, escSeg]
  | case2 =>
    intro ss h; simp [splitChars] at h
  | case3 d rest2 hd ih =>
    intro ss h
    simp [splitChars, hd] at h
    obtain ⟨ss2, hss2, rfl⟩ := h
    rw [joinSegs_consHead_escaped d hd ss2 (splitChars_ne_nil rest2 ss2 hss2), ih ss2 hss2]
  | case4 d rest2 hd =>
    intro ss h; simp [splitChars, hd] at h
  | case5 rest2 hne ih =>
    intro ss h
    rw [splitChars.eq_def] at h
    simp [hne] at h
    obtain ⟨ss2, hss2, rfl⟩ := h
    have h2 := splitChars_ne_nil rest2 ss2 hss2
    cases ss2 with
    | nil => exact absurd rfl h2
    | cons s t => simp [joinSegs, escSeg, ih _ hss2]
  | case6 d rest2 hde hds ih =>
    intro ss h
    rw [splitChars.eq_def] at h
    simp [hde, hds] at h
    obtain ⟨ss2, hss2, rfl⟩ := h
    rw [joinSegs_consHead d (by tauto) ss2 (splitChars_ne_nil rest2 ss2 hss2), ih ss2 hss2]

/-- Modelled from the spec: split of the KeyPath Utilities at String level;
none models a KeypathFormatError on a malformed escape. -/
def splitKey (k : String) : Option (List String) :=
  (splitChars k.data).map (List.map (fun s => String.mk s))

/-- Modelled from the spec: join of the KeyPath Utilities at String level. -/
def joinKey (segs : List String) : String :=
  String.mk (joinSegs (segs.map String.data))

end I18n

/-- C3: for every valid keypath k (one whose escapes are well formed, so
that split succeeds), join of split restores k exactly, including keypaths
whose segments contain an escaped separator character. -/
theorem C3_join_split (k : String) (segs : List String)
    (h : I18n.splitKey k = some segs) : I18n.joinKey segs = k := by
  unfold I18n.splitKey at h
  obtain ⟨ss, hss, rfl⟩ :
      ∃ ss, I18n.splitChars k.data = some ss
        ∧ ss.map (fun s => String.mk s) = segs := by
    cases hsc : I18n.splitChars k.data with
    | none => simp [hsc] at h
    | some ss => exact ⟨ss, rfl, by simpa [hsc] using h⟩
  show I18n.joinKey (ss.map (fun s => String.mk s)) = k
  unfold I18n.joinKey
  have hmm : (ss.map (fun s => String.mk s)).map String.data = ss := by
    simp [List.map_map, Function.comp_def]
  rw [hmm, I18n.join_split_chars k.data ss hss]

/-- Witness for C3 on the keypath a\.b.c whose first segment contains an
escaped separator: it splits into the segments a.b and c and joins back. -/
theorem C3_join_split_witness :
    I18n.splitKey "a\\.b.c" = some ["a.b", "c"]
    ∧ I18n.joinKey ["a.b", "c"] = "a\\.b.c" :=
  ⟨by decide, C3_join_split "a\\.b.c" ["a.b", "c"] (by decide)⟩

namespace I18n

/-- Coverage: per-locale translation statistics, from the source interface. -/
structure Coverage where
  locale : String
  keys : List String
  translated : Nat
  total : Nat
deriving DecidableEq, Repr

/-- Modelled from the spec: the Coverage Calculator (absent from the
sources) counts a keypath for a locale when its node carries a non-shadow
record for that locale. -/
def hasNonShadowRecord (n : LocaleNode) (l : String) : Bool :=
  match n.locales.lookup l with
  | some r => !r.shadow
  | none => false

/-- Modelled from the spec: a keypath is translated for a locale when its
node carries a non-shadow record whose value is non-empty after trimming. -/
def hasTranslatedRecord (n : LocaleNode) (l : String) : Bool :=
  match n.locales.lookup l with
  | some r => !r.shadow && !(r.value.trim = "")
  | none => false

/-- Modelled from the spec: the Coverage record of one locale; keys are the
keypaths carrying a non-shadow record, translated counts those with a
non-empty trimmed value, total is the size of the flatten index. -/
def coverageFor (flatten : List (String × LocaleNode)) (l : String) : Coverage :=
  { locale := l
  , keys := (flatten.filter (fun p => hasNonShadowRecord p.2 l)).map (fun p => p.1)
  , translated := (flatten.filter (fun p => hasTranslatedRecord p.2 l)).length
  , total := flatten.length }

/-- Modelled from the spec: computeCoverage of the Coverage Calculator,
one Coverage record per requested locale. -/
def computeCoverage (flatten : List (String × LocaleNode)) (locales : List String) :
    List Coverage :=
  locales.map (coverageFor flatten)

/-- A concrete one-entry flatten index used by witnesses. -/
def exFlatten : List (String × LocaleNode) := [("a.b", emptyValueNode)]

end I18n

/-- C4: every Coverage record of computeCoverage satisfies
translated ≤ total, its total equals the size of the flatten index (hence
total is the same in every record of one report), and a locale with no
entries at all yields translated zero and an empty key list. -/
theorem C4_computeCoverage (flatten : List (String × I18n.LocaleNode))
    (locales : List String) (c : I18n.Coverage)
    (hc : c ∈ I18n.computeCoverage flatten locales) :
    c.translated ≤ c.total
    ∧ c.total = flatten.length
    ∧ ((∀ p ∈ flatten, p.2.locales.lookup c.locale = none) →
        c.translated = 0 ∧ c.keys = []) := by
  obtain ⟨l, hl, rfl⟩ := List.mem_map.mp hc
  refine ⟨List.length_filter_le _ _, rfl, ?_⟩
  intro habsent
  constructor
  · show (flatten.filter
      (fun p => I18n.hasTranslatedRecord p.2 (I18n.coverageFor flatten l).locale)).length = 0
    rw [List.length_eq_zero, List.filter_eq_nil_iff]
    intro p hp
    simp [I18n.hasTranslatedRecord, habsent p hp]
  · show (flatten.filter
      (fun p => I18n.hasNonShadowRecord p.2 (I18n.coverageFor flatten l).locale)).map
        (fun p => p.1) = []
    rw [List.map_eq_nil_iff, List.filter_eq_nil_iff]
    intro p hp
    simp [I18n.hasNonShadowRecord, habsent p hp]

/-- Witness for C4 at a one-entry flatten index and the entryless locale
de: translated is zero, the key list is empty and total is one. -/
theorem C4_computeCoverage_witness :
    (I18n.coverageFor I18n.exFlatten "de").translated ≤ (I18n.coverageFor I18n.exFlatten "de").total
    ∧ (I18n.coverageFor I18n.exFlatten "de").total = I18n.exFlatten.length
    ∧ ((I18n.coverageFor I18n.exFlatten "de").translated = 0
        ∧ (I18n.coverageFor I18n.exFlatten "de").keys = []) := by
  have h := C4_computeCoverage I18n.exFlatten ["de"] (I18n.coverageFor I18n.exFlatten "de")
    (by decide)
  exact ⟨h.1, h.2.1, h.2.2 (by decide)⟩

namespace I18n

/-- PendingWrite: a queued not-yet-flushed mutation, from the source. -/
structure PendingWrite where
  locale : String
  keypath : String
  filepath : Option String
  value : String
deriving DecidableEq, Repr

/-- Two pending writes share the queue key when locale and keypath agree. -/
def sameKey (a b : PendingWrite) : Bool :=
  decide (a.locale = b.locale ∧ a.keypath = b.keypath)

/-- Modelled from the spec: enqueue of the Pending Write Queue (absent from
the sources) coalesces by the locale and keypath pair, replacing any prior
queued entry for that pair, last writer wins. -/
def enqueue (q : List PendingWrite) (w : PendingWrite) : List PendingWrite :=
  (q.filter (fun e => !sameKey e w)) ++ [w]

/-- Modelled from the spec: flush drains the full current queue as one
batch of persisted writes and leaves the queue empty. -/
def flushQueue (q : List PendingWrite) : List PendingWrite × List PendingWrite :=
  (q, [])

/-- The just-enqueued write is the only entry of the queue for its key. -/
theorem enqueue_filter_self (q : List PendingWrite) (w : PendingWrite) :
    (enqueue q w).filter (fun e => sameKey e w) = [w] := by
  unfold enqueue
  rw [List.filter_append, List.filter_filter]
  have h1 : ∀ (a : PendingWrite), (sameKey a w && !sameKey a w) = false := by
    intro a; cases sameKey a w <;> rfl
  simp only [h1]
  simp [sameKey]

end I18n

/-- C5: queue entries are uniquely keyed by the locale and keypath pair:
after enqueuing w1 and then w2 with the same key, flushing persists exactly
one write for that key, namely w2, and when the values differ the earlier
write w1 is no longer in the flushed batch. -/
theorem C5_enqueue_coalesce (q : List I18n.PendingWrite) (w1 w2 : I18n.PendingWrite)
    (h : I18n.sameKey w1 w2 = true) :
    ((I18n.flushQueue (I18n.enqueue (I18n.enqueue q w1) w2)).1.filter
        (fun e => I18n.sameKey e w2) = [w2])
    ∧ (w1.value ≠ w2.value → w1 ∉ (I18n.flushQueue (I18n.enqueue (I18n.enqueue q w1) w2)).1)
    ∧ (I18n.flushQueue (I18n.enqueue (I18n.enqueue q w1) w2)).2 = [] := by
  refine ⟨I18n.enqueue_filter_self _ _, ?_, rfl⟩
  intro hv hmem
  show False
  have hmem2 : w1 ∈ (I18n.enqueue (I18n.enqueue q w1) w2) := hmem
  unfold I18n.enqueue at hmem2
  rcases List.mem_append.mp hmem2 with hin | hin
  · have := List.of_mem_filter hin
    simp [h] at this
  · have : w1 = w2 := by simpa using hin
    exact hv (by rw [this])

/-- Witness for C5: enqueuing v1 then v2 for the key en and a.b on the
empty queue flushes exactly one persisted write, carrying v2. -/
theorem C5_enqueue_coalesce_witness :
    ((I18n.flushQueue (I18n.enqueue (I18n.enqueue []
        ⟨"en", "a.b", none, "v1"⟩) ⟨"en", "a.b", none, "v2"⟩)).1.filter
      (fun e => I18n.sameKey e ⟨"en", "a.b", none, "v2"⟩) = [⟨"en", "a.b", none, "v2"⟩])
    ∧ (⟨"en", "a.b", none, "v1"⟩ : I18n.PendingWrite)
        ∉ (I18n.flushQueue (I18n.enqueue (I18n.enqueue []
          ⟨"en", "a.b", none, "v1"⟩) ⟨"en", "a.b", none, "v2"⟩)).1 := by
  have h := C5_enqueue_coalesce [] ⟨"en", "a.b", none, "v1"⟩ ⟨"en", "a.b", none, "v2"⟩ (by decide)
  exact ⟨h.1, h.2.1 (by decide)⟩

namespace I18n

/-- LocaleLoaderEventType, from the source: the changed signal plus the
add and remove variants named by the spec (the source listing is truncated
after changed). -/
inductive LocaleLoaderEventType
  | changed
  | added
  | removed
deriving DecidableEq, Repr

/-- One change event: kind, keypath, and the affected locale when any. -/
abbrev LoaderEvent := LocaleLoaderEventType × String × Option String

/-- The keypaths of a flatten index. -/
def keysOf (m : List (String × LocaleNode)) : List String := m.map (fun p => p.1)

/-- The locales of a locale-record association list. -/
def recKeysOf (rs : List (String × LocaleRecord)) : List String := rs.map (fun p => p.1)

/-- Modelled from the spec: the locales at which two nodes for one keypath
differ in value or shadow status (their records differ). -/
def changedLocalesOf (old new : LocaleNode) : List String :=
  ((recKeysOf old.locales ++ recKeysOf new.locales).dedup).filter
    (fun l => decide (old.locales.lookup l ≠ new.locales.lookup l))

/-- Modelled from the spec: diff of the Change Detector (absent from the
sources), a symmetric-difference walk over two flatten indices: keypaths
only in next are added, only in previous are removed, in both with a
differing record for some locale are changed, one event per pair. -/
def diffFlatten (previous next : List (String × LocaleNode)) : List LoaderEvent :=
  ((next.filter (fun p => !decide (p.1 ∈ keysOf previous))).map
    (fun p => (LocaleLoaderEventType.added, p.1, (none : Option String))))
  ++ ((previous.filter (fun p => !decide (p.1 ∈ keysOf next))).map
    (fun p => (LocaleLoaderEventType.removed, p.1, (none : Option String))))
  ++ (next.flatMap (fun p =>
    match previous.lookup p.1 with
    | some old => (changedLocalesOf old p.2).map
        (fun l => (LocaleLoaderEventType.changed, p.1, some l))
    | none => []))

/-- In a flatten index with distinct keypaths, looking a member pair up by
its keypath returns its node. -/
theorem lookup_self (m : List (String × LocaleNode)) (k : String) (n : LocaleNode)
    (hnd : (keysOf m).Nodup) (hmem : (k, n) ∈ m) : m.lookup k = some n := by
  induction m with
  | nil => simp at hmem
  | cons hd tl ih =>
    obtain ⟨k', n'⟩ := hd
    have hnd' : k' ∉ keysOf tl ∧ (keysOf tl).Nodup := by
      simpa [keysOf] using hnd
    rcases List.mem_cons.mp hmem with heq | htl
    · cases heq
      simp [List.lookup]
    · have hk : k ∈ keysOf tl := List.mem_map.mpr ⟨(k, n), htl, rfl⟩
      have hne : (k == k') = false := by
        rw [beq_eq_false_iff_ne]
        intro he
        exact hnd'.1 (he ▸ hk)
      simp [List.lookup, hne]
      exact ih hnd'.2 htl

/-- A node differs from itself at no locale. -/
theorem changedLocalesOf_self (n : LocaleNode) : changedLocalesOf n n = [] := by
  simp [changedLocalesOf]

end I18n

/-- C6: when next is structurally and value-equal to previous (and the
flatten index has distinct keypaths, as a map has), the Change Detector
emits no event: the diff is the empty list. -/
theorem C6_diff_idempotent (previous next : List (String × I18n.LocaleNode))
    (heq : previous = next) (hnd : (I18n.keysOf next).Nodup) :
    I18n.diffFlatten previous next = [] := by
  subst heq
  unfold I18n.diffFlatten
  have hadd : previous.filter (fun p => !decide (p.1 ∈ I18n.keysOf previous)) = [] := by
    rw [List.filter_eq_nil_iff]
    intro p hp
    simp [I18n.keysOf]
    exact ⟨p.2, by simpa using hp⟩
  have hchg : (previous.flatMap (fun p =>
      match previous.lookup p.1 with
      | some old => (I18n.changedLocalesOf old p.2).map
          (fun l => (I18n.LocaleLoaderEventType.changed, p.1, some l))
      | none => ([] : List I18n.LoaderEvent))) = [] := by
    rw [List.flatMap_eq_nil_iff]
    intro p hp
    rw [I18n.lookup_self previous p.1 p.2 hnd (by simpa using hp)]
    simp [I18n.changedLocalesOf_self]
  rw [hadd, hchg]
  simp

/-- Witness for C6: diffing the concrete one-entry flatten index against
itself yields no event. -/
theorem C6_diff_idempotent_witness :
    I18n.diffFlatten I18n.exFlatten I18n.exFlatten = [] :=
  C6_diff_idempotent I18n.exFlatten I18n.exFlatten rfl (by decide)

namespace I18n

/-- Modelled from the spec: the Tree Builder and Merge Resolver construct a
LocaleNode for one keypath from the per-locale records (real records from
files plus synthesized shadow records); the builder itself is absent from
the sources. Per the data-model invariant, the node shadow flag holds only
when all contained records are shadow records. -/
def mkLocaleNode (keypath : String) (records : List (String × LocaleRecord)) : LocaleNode :=
  { keypath := keypath
  , keyname := getKeyname keypath
  , locales := records
  , shadow := records.all (fun p => p.2.shadow) }

/-- A concrete non-shadow record for the C7 witness. -/
def realRecord : LocaleRecord :=
  { keypath := "x.y", keyname := "y", value := "hi", locale := "en"
  , filepath := some "en.json", shadow := false }

/-- A concrete shadow record for the C7 witness. -/
def shadowRecord : LocaleRecord :=
  { keypath := "x.y", keyname := "y", value := "", locale := "de"
  , filepath := none, shadow := true }

end I18n

/-- C7: a constructed LocaleNode has the shadow flag true only if every
contained record is a shadow record; equivalently a node containing at
least one non-shadow record has shadow false. -/
theorem C7_node_shadow_invariant (keypath : String)
    (records : List (String × I18n.LocaleRecord)) :
    ((I18n.mkLocaleNode keypath records).shadow = true →
      ∀ p ∈ records, p.2.shadow = true)
    ∧ ((∃ p ∈ records, p.2.shadow = false) →
      (I18n.mkLocaleNode keypath records).shadow = false) := by
  constructor
  · intro h p hp
    exact List.all_eq_true.mp h p hp
  · rintro ⟨p, hp, hps⟩
    show records.all (fun p => p.2.shadow) = false
    rw [List.all_eq_false]
    exact ⟨p, hp, by simp [hps]⟩

/-- Witness for C7: a node holding one real record and one shadow record
has shadow false. -/
theorem C7_node_shadow_invariant_witness :
    (I18n.mkLocaleNode "x.y"
      [("en", I18n.realRecord), ("de", I18n.shadowRecord)]).shadow = false :=
  (C7_node_shadow_invariant "x.y" [("en", I18n.realRecord), ("de", I18n.shadowRecord)]).2
    ⟨("en", I18n.realRecord), by decide, by decide⟩

namespace DeepL

/-- DeeplGlossaryInfo: glossary metadata, from the source. -/
structure DeeplGlossaryInfo where
  glossary_id : String
  name : String
  ready : Bool
  source_lang : String
  target_lang : String
  creation_time : String
  entry_count : Nat
deriving DecidableEq, Repr

/-- GlossaryInfoCache, from the source: both fields are optional in TS and
start undefined; undefined is modelled as none. -/
structure GlossaryInfoCache where
  lastUpdate : Option Nat
  glossaries : Option (List DeeplGlossaryInfo)
deriving DecidableEq, Repr

/-- GLOSSARY_CACHE_TTL, from the source: one minute in milliseconds. -/
def GLOSSARY_CACHE_TTL : Nat := 60 * 1000

/-- isCached, from the source: the check lastUpdate and
now - lastUpdate < TTL under JS truthiness, so an absent or zero timestamp
is stale; the subtraction is over integers as in JS. -/
def isCached (cache : GlossaryInfoCache) (now : Nat) : Bool :=
  match cache.lastUpdate with
  | none => false
  | some t => decide (t ≠ 0) && decide ((now : Int) - (t : Int) < (GLOSSARY_CACHE_TTL : Int))

/-- invalidateCache, from the source: set lastUpdate to zero and the
glossary list to empty. -/
def invalidateCache (_cache : GlossaryInfoCache) : GlossaryInfoCache :=
  { lastUpdate := some 0, glossaries := some [] }

/-- Outcome of one readGlossaryList call: the returned value or error, the
cache state afterwards, and whether a network request was issued. -/
structure ReadGlossaryResult where
  result : Except String (List DeeplGlossaryInfo)
  cache : GlossaryInfoCache
  didRequest : Bool
deriving Repr

/-- readGlossaryList, from the source: serve the cache when it is fresh and
no forced update is requested; otherwise issue the request, whose outcome
is the response argument (an error, a payload without a glossaries field
which raises Can not read glossaries, or the glossary list, which is stored
with the current time). The source under src has no forceUpdate flag, which
is the forceUpdate false instance of this model. -/
def readGlossaryList (cache : GlossaryInfoCache) (now : Nat) (forceUpdate : Bool)
    (response : Except String (Option (List DeeplGlossaryInfo))) : ReadGlossaryResult :=
  if isCached cache now && !forceUpdate then
    { result := .ok (cache.glossaries.getD []), cache := cache, didRequest := false }
  else
    match response with
    | .error e => { result := .error e, cache := cache, didRequest := true }
    | .ok none =>
      { result := .error "Can not read glossaries", cache := cache, didRequest := true }
    | .ok (some gs) =>
      { result := .ok gs
      , cache := { lastUpdate := some now, glossaries := some gs }
      , didRequest := true }

/-- A concrete fresh cache for the C8 witness. -/
def freshCache : GlossaryInfoCache := { lastUpdate := some 1, glossaries := some [] }

end DeepL

/-- C8: the glossary cache is fresh at time now exactly when a nonzero
lastUpdate is recorded and now minus lastUpdate is strictly below the
60000 ms TTL; readGlossaryList serves the cached list without issuing a
request exactly when the cache is fresh and forceUpdate is false; and after
invalidateCache the cache is stale at every subsequent time. -/
theorem C8_glossary_cache (cache : DeepL.GlossaryInfoCache) (now : Nat)
    (forceUpdate : Bool) (response : Except String (Option (List DeepL.DeeplGlossaryInfo))) :
    (DeepL.isCached cache now = true
      ↔ ∃ t, cache.lastUpdate = some t ∧ t ≠ 0 ∧ (now : Int) - (t : Int) < 60000)
    ∧ ((DeepL.readGlossaryList cache now forceUpdate response).didRequest = false
      ↔ (DeepL.isCached cache now = true ∧ forceUpdate = false))
    ∧ ((DeepL.readGlossaryList cache now forceUpdate response).didRequest = false →
        (DeepL.readGlossaryList cache now forceUpdate response).result
          = .ok (cache.glossaries.getD [])
        ∧ (DeepL.readGlossaryList cache now forceUpdate response).cache = cache)
    ∧ (∀ m, DeepL.isCached (DeepL.invalidateCache cache) m = false) := by
  refine ⟨?_, ?_, ?_, ?_⟩
  · unfold DeepL.isCached
    cases h : cache.lastUpdate with
    | none => simp
    | some t =>
      simp [DeepL.GLOSSARY_CACHE_TTL]
  · unfold DeepL.readGlossaryList
    cases hc : DeepL.isCached cache now <;> cases forceUpdate <;>
      simp <;> cases response with
      | error e => simp
      | ok
        g => cases g <;> simp
  · unfold DeepL.readGlossaryList
    cases hc : DeepL.isCached cache now <;> cases forceUpdate <;>
      simp <;> cases response with
      | error e => simp
      | ok
        g => cases g <;> simp
  · intro m
    simp [DeepL.isCached, DeepL.invalidateCache]

/-- Witness for C8 on a concrete fresh cache at time two: no request is
issued and the cached list is returned unchanged. -/
theorem C8_glossary_cache_witness :
    (DeepL.readGlossaryList DeepL.freshCache 2 false (.error "boom")).result
      = .ok (DeepL.freshCache.glossaries.getD [])
    ∧ (DeepL.readGlossaryList DeepL.freshCache 2 false (.error "boom")).cache
      = DeepL.freshCache :=
  (C8_glossary_cache DeepL.freshCache 2 false (.error "boom")).2.2.1 (by decide)

namespace DeepL

/-- JS truthiness of an optional string: undefined and the empty string
are falsy. -/
def strTruthy : Option String → Bool
  | none => false
  | some s => decide (s ≠ "")

/-- getTranslationRequestGlossaryIdentifier, from the source: inside one
try block, when glossaries are enabled and options.from and options.to are
truthy, look the glossary id for the language pair up (the lookup argument
is the outcome of getGlossaryId, error when it throws) and return it when
truthy; every other path, the catch arm included, returns the empty
object, modelled as none. -/
def getTranslationRequestGlossaryIdentifier (enabled : Bool)
    (sourceLang targetLang : Option String)
    (lookup : Except String (Option String)) : Option String :=
  if enabled && strTruthy sourceLang && strTruthy targetLang then
    match lookup with
    | .ok gid => if strTruthy gid then gid else none
    | .error _ => none
  else none

end DeepL

/-- C9: getTranslationRequestGlossaryIdentifier never propagates an error:
it is a total function into an optional glossary id (some id models an
object holding exactly a glossary_id, none the empty object); it yields
none whenever glossaries are disabled, the source or target language is
missing, the lookup fails, or no glossary matches; and it yields an id only
when the lookup succeeded with exactly that id. -/
theorem C9_glossary_identifier_total (enabled : Bool)
    (sourceLang targetLang : Option String)
    (lookup : Except String (Option String)) :
    (DeepL.getTranslationRequestGlossaryIdentifier false sourceLang targetLang lookup = none)
    ∧ (DeepL.getTranslationRequestGlossaryIdentifier enabled none targetLang lookup = none)
    ∧ (DeepL.getTranslationRequestGlossaryIdentifier enabled sourceLang none lookup = none)
    ∧ (∀ e, DeepL.getTranslationRequestGlossaryIdentifier enabled sourceLang targetLang
        (.error e) = none)
    ∧ (DeepL.getTranslationRequestGlossaryIdentifier enabled sourceLang targetLang
        (.ok none) = none)
    ∧ (∀ gid, DeepL.getTranslationRequestGlossaryIdentifier enabled sourceLang targetLang
        lookup = some gid → lookup = .ok (some gid)) := by
  unfold DeepL.getTranslationRequestGlossaryIdentifier
  refine ⟨by simp, by simp [DeepL.strTruthy], by simp [DeepL.strTruthy], ?_, ?_, ?_⟩
  · intro e
    by_cases h : (enabled && DeepL.strTruthy sourceLang && DeepL.strTruthy targetLang) = true
    · simp [h]
    · simp [Bool.eq_false_iff.mpr h]
  · by_cases h : (enabled && DeepL.strTruthy sourceLang && DeepL.strTruthy targetLang) = true
    · simp [h, DeepL.strTruthy]
    · simp [Bool.eq_false_iff.mpr h]
  · intro gid
    by_cases h : (enabled && DeepL.strTruthy sourceLang && DeepL.strTruthy targetLang) = true
    · simp only [h, if_true]
      cases lookup with
      | error e => simp
      | ok g =>
        cases hg : DeepL.strTruthy g
        · simp [hg]
        · intro hsome
          simp [hg] at hsome
          rw [hsome]
    · simp [Bool.eq_false_iff.mpr h]

/-- Witness for C9: with a failing lookup the identifier is the empty
object, and a successful concrete run returns exactly the looked-up id. -/
theorem C9_glossary_identifier_total_witness :
    (DeepL.getTranslationRequestGlossaryIdentifier true (some "en") (some "de")
      (.error "boom") = none)
    ∧ (.ok (some "gid") : Except String (Option String)) = .ok (some "gid") := by
  refine ⟨?_, rfl⟩
  exact (C9_glossary_identifier_total true (some "en") (some "de")
    (.error "boom")).2.2.2.1 "boom"

namespace DeepL

/-- updateGlossary, from the source: inside a try block it reads the
glossary ids for the language pair (through readGlossaryList, whose cache
effect is threaded), fires the per-id deletions without awaiting them (a
forEach over an async callback, so their outcomes influence neither the
result nor the thrown error), then awaits createGlossary; the finally
clause invalidates the shared cache on every path. -/
def updateGlossary (cache : GlossaryInfoCache) (now : Nat)
    (readResponse : Except String (Option (List DeeplGlossaryInfo)))
    (_deleteOutcomes : List (Except String Unit))
    (createOutcome : Except String Unit) :
    Except String Unit × GlossaryInfoCache :=
  match (readGlossaryList cache now false readResponse).result, createOutcome with
  | .error e, _ =>
    (.error e, invalidateCache (readGlossaryList cache now false readResponse).cache)
  | .ok _, .error e =>
    (.error e, invalidateCache (readGlossaryList cache now false readResponse).cache)
  | .ok _, .ok _ =>
    (.ok (), invalidateCache (readGlossaryList cache now false readResponse).cache)

end DeepL

/-- C10: however updateGlossary terminates, normally or with an error from
its read, delete or create steps, the shared glossary cache afterwards is
the invalidated one (lastUpdate zero, empty list), it is stale at every
later time, and the next readGlossaryList always issues a request. -/
theorem C10_updateGlossary_invalidates (cache : DeepL.GlossaryInfoCache) (now : Nat)
    (readResponse : Except String (Option (List DeepL.DeeplGlossaryInfo)))
    (deleteOutcomes : List (Except String Unit))
    (createOutcome : Except String Unit) :
    (DeepL.updateGlossary cache now readResponse deleteOutcomes createOutcome).2
      = { lastUpdate := some 0, glossaries := some [] }
    ∧ (∀ m, DeepL.isCached
        (DeepL.updateGlossary cache now readResponse deleteOutcomes createOutcome).2 m
          = false)
    ∧ (∀ m fu resp, (DeepL.readGlossaryList
        (DeepL.updateGlossary cache now readResponse deleteOutcomes createOutcome).2
          m fu resp).didRequest = true) := by
  have hsnd : (DeepL.updateGlossary cache now readResponse deleteOutcomes createOutcome).2
      = { lastUpdate := some 0, glossaries := some [] } := by
    unfold DeepL.updateGlossary
    cases (DeepL.readGlossaryList cache now false readResponse).result with
    | error e => rfl
    | ok v =>
      cases createOutcome with
      | error e => rfl
      | ok u => rfl
  refine ⟨hsnd, ?_, ?_⟩
  · intro m
    rw [hsnd]
    simp [DeepL.isCached]
  · intro m fu resp
    rw [hsnd]
    have hstale : DeepL.isCached
        ({ lastUpdate := some 0, glossaries := some [] } : DeepL.GlossaryInfoCache) m
          = false := by
      simp [DeepL.isCached]
    unfold DeepL.readGlossaryList
    rw [hstale]
    simp only [Bool.false_and, if_false]
    cases resp with
    | error e => rfl
    | ok g => cases g <;> rfl
